import Mathlib

/-
Verification of the markdown converter (`datacontract/export/markdown_converter.py`).

The rendering functions are shallowly embedded from the source file.  The input
data model (`DataContractSpecification`, `Server`, `Model`, `Field`,
`Definition`, `ServiceLevel`) is not part of the provided sources, so it is
modelled from the DATA MODEL section of the specification: every entity carries its
declared structural fields plus an open, insertion-ordered mapping of scalar
attributes, where presence in the mapping means "explicitly set" (this models
the pydantic method `model_dump(exclude_unset=True)`).
-/

namespace DC

/-- The Python expression `"\n".join(parts)`. -/
def joinNL : List String → String
  | [] => ""
  | [s] => s
  | s :: rest => s ++ "\n" ++ joinNL rest

/-- The Python expression `"<br>".join(parts)`. -/
def joinBr : List String → String
  | [] => ""
  | [s] => s
  | s :: rest => s ++ "<br>" ++ joinBr rest

/-- The Python string repetition `s * n`. -/
def strRepeat (s : String) : Nat → String
  | 0 => ""
  | n + 1 => s ++ strRepeat s n

/-- Character-level model of the Python call `str.replace("\n", "<br>")`. -/
def replaceNl : List Char → List Char
  | [] => []
  | c :: rest =>
    if c = '\n' then '<' :: 'b' :: 'r' :: '>' :: replaceNl rest
    else c :: replaceNl rest

/-- `str.replace("\n", "<br>")` on strings. -/
def nlToBr (s : String) : String := String.mk (replaceNl s.data)

/-- Split a character list at newline characters (the lines of a text). -/
def splitNl : List Char → List (List Char)
  | [] => [[]]
  | c :: rest =>
    if c = '\n' then [] :: splitNl rest
    else
      match splitNl rest with
      | [] => [[c]]
      | h :: t => (c :: h) :: t

/-- The list of lines of a string. -/
def strLines (s : String) : List String := (splitNl s.data).map (fun l => String.mk l)

/-- Number of positions at which `pat` occurs as a substring of `s`. -/
def countSub (pat : List Char) : List Char → Nat
  | [] => 0
  | c :: t => (if pat.isPrefixOf (c :: t) then 1 else 0) + countSub pat t

/-- Boolean subsequence test on lists of strings. -/
def isSubseq : List String → List String → Bool
  | [], _ => true
  | _ :: _, [] => false
  | a :: as, b :: bs => if a == b then isSubseq as bs else isSubseq (a :: as) bs

/-- Modelled from the spec: a tagged scalar attribute value (string, boolean or
number), as described in the DESIGN NOTES for generic/open attribute sets. -/
inductive AttrValue where
  | s (v : String)
  | b (v : Bool)
  | i (v : Int)
  deriving DecidableEq

/-- Modelled from the spec: a generic attribute-bearing object.  `attrs` holds
exactly the attributes that were explicitly set in the original input, in
insertion order, so that "unset" is distinguished from "set to a falsy value";
the `description` attribute is kept apart since the formatter special-cases it. -/
structure Obj where
  description : Option String
  attrs : List (String × AttrValue)
  deriving DecidableEq

/-- Modelled from the spec: a named connection target with a `type` tag and
open scalar attributes. -/
structure Server where
  type : Option String
  obj : Obj
  deriving DecidableEq

/-- Modelled from the spec: a field node of the schema tree of a model, with a
`type` tag, open scalar attributes, and four structural children. -/
inductive Field where
  | mk (type : String) (obj : Obj) (fields : List (String × Field))
      (items : Option Field) (keys : Option Field) (values : Option Field)

def Field.type : Field → String
  | .mk t _ _ _ _ _ => t

def Field.obj : Field → Obj
  | .mk _ o _ _ _ _ => o

def Field.fields : Field → List (String × Field)
  | .mk _ _ fs _ _ _ => fs

def Field.items : Field → Option Field
  | .mk _ _ _ it _ _ => it

def Field.keys : Field → Option Field
  | .mk _ _ _ _ ks _ => ks

def Field.values : Field → Option Field
  | .mk _ _ _ _ _ vs => vs

/-- Modelled from the spec: a model with an optional description and an
insertion-ordered mapping of field names to fields. -/
structure Model where
  description : Option String
  fields : List (String × Field)

/-- Modelled from the spec: a reusable field definition with `type` and
`domain` tags plus open scalar attributes. -/
structure Definition where
  type : Option String
  domain : Option String
  obj : Obj
  deriving DecidableEq

/-- Modelled from the spec: the service-level container of up to seven
optional attribute-bearing sub-objects. -/
structure ServiceLevel where
  availability : Option Obj
  retention : Option Obj
  latency : Option Obj
  freshness : Option Obj
  frequency : Option Obj
  support : Option Obj
  backup : Option Obj
  deriving DecidableEq

/-- Modelled from the spec: the top-level document. -/
structure DataContractSpecification where
  id : String
  info : Option Obj
  servers : List (String × Server)
  terms : Option Obj
  models : List (String × Model)
  definitions : List (String × Definition)
  servicelevels : Option ServiceLevel

/-- Python truthiness of an attribute value (the `if value` filter). -/
def truthy : AttrValue → Bool
  | .s v => v != ""
  | .b v => v
  | .i v => v != 0

/-- The Python form `str(value)` for the tagged values. -/
def valueStr : AttrValue → String
  | .s v => v
  | .b true => "True"
  | .b false => "False"
  | .i v => toString v

/-- The bullet built for one attribute: `value is True` gives the flag form,
anything else the bold name/value form (source line 70). -/
def bulletOf (attr : String) (value : AttrValue) : String :=
  match value with
  | .b true => "• `" ++ attr ++ "`"
  | v => "• **" ++ attr ++ ":** " ++ valueStr v

/-- The Python idiom `x or ''` for an optional string. -/
def orEmptyStr : Option String → String
  | none => ""
  | some s => s

/-- `description_to_markdown` (source line 245): fall back to
"No description." for a missing or falsy description, then replace newlines. -/
def description_to_markdown (description : Option String) : String :=
  nlToBr (match description with
    | none => "No description."
    | some s => if s == "" then "No description." else s)

/-- The `attributes` list comprehension of `obj_attributes_to_markdown`
(source lines 69-71): keep the attributes that are not excluded and truthy,
and format each as a bullet. -/
def attributesList (o : Obj) (excluded : List String) : List String :=
  ((o.attrs.filter (fun p => !(excluded.contains p.1))).filter
    (fun p => truthy p.2)).map (fun p => bulletOf p.1 p.2)

/-- `obj_attributes_to_markdown` (source lines 64-72). -/
def obj_attributes_to_markdown : Option Obj → List String → String
  | none, _ => ""
  | some o, excluded =>
    "*" ++ description_to_markdown o.description ++ "*<br>" ++
      joinBr (attributesList o excluded)

/-- The row built for one server (source line 84). -/
def serverRowStr (server_name : String) (server : Server) : String :=
  "| " ++ server_name ++ " | " ++ orEmptyStr server.type ++ " | " ++
    obj_attributes_to_markdown (some server.obj) ["type"] ++ " |"

/-- `servers_to_markdown` (source lines 75-86). -/
def servers_to_markdown (servers : List (String × Server)) : String :=
  if servers.isEmpty then ""
  else
    joinNL (["| Name | Type | Attributes |", "| ---- | ---- | ---------- |"] ++
      servers.map (fun p => serverRowStr p.1 p.2))

/-- The row built for one definition (source line 177). -/
def definitionRowStr (definition_name : String) (definition : Definition) : String :=
  "| " ++ definition_name ++ " | " ++ orEmptyStr definition.type ++ " | " ++
    orEmptyStr definition.domain ++ " | " ++
    obj_attributes_to_markdown (some definition.obj) ["name", "type", "domain"] ++ " |"

/-- `definitions_to_markdown` (source lines 168-179). -/
def definitions_to_markdown (definitions : List (String × Definition)) : String :=
  if definitions.isEmpty then ""
  else
    joinNL (["| Name | Type | Domain | Attributes |",
      "| ---- | ---- | ------ | ---------- |"] ++
      definitions.map (fun p => definitionRowStr p.1 p.2))

mutual

/-- `field_to_markdown` (source lines 135-165). -/
def field_to_markdown (field_name : String) (f : Field) (level : Nat) : String :=
  match f with
  | .mk ty o fs it ks vs =>
    let tabs := strRepeat "&numsp;" level
    let arrow := if level > 0 then "&#x21b3;" else ""
    let column_name := tabs ++ arrow ++ " " ++ field_name
    let attributes :=
      obj_attributes_to_markdown (some o) ["type", "fields", "items", "keys", "values"]
    let row := "| " ++ column_name ++ " | " ++ ty ++ " | " ++ attributes ++ " |"
    joinNL ([row] ++
      (if fs.isEmpty then [] else [fields_to_markdown fs (level + 1)]) ++
      (match it with
        | some i => [field_to_markdown "items" i (level + 1)]
        | none => []) ++
      (match ks with
        | some k => [field_to_markdown "keys" k (level + 1)]
        | none => []) ++
      (match vs with
        | some v => [field_to_markdown "values" v (level + 1)]
        | none => []))

/-- `fields_to_markdown` (source lines 117-132): newline-join of the rows of
every field, in mapping order. -/
def fields_to_markdown (fields : List (String × Field)) (level : Nat) : String :=
  match fields with
  | [] => ""
  | [(n, f)] => field_to_markdown n f level
  | (n, f) :: rest => field_to_markdown n f level ++ "\n" ++ fields_to_markdown rest level

end

/-- `model_to_markdown` (source lines 93-114). -/
def model_to_markdown (model_name : String) (model : Model) : String :=
  joinNL ["### " ++ model_name,
    "*" ++ description_to_markdown model.description ++ "*",
    "",
    "| Field | Type | Attributes |",
    "| ----- | ---- | ---------- |",
    fields_to_markdown model.fields 0]

/-- `models_to_markdown` (source lines 89-90). -/
def models_to_markdown (models : List (String × Model)) : String :=
  joinNL (models.map (fun p => model_to_markdown p.1 p.2))

/-- One conditional sub-section of `service_level_to_markdown`. -/
def serviceLevelSub (title : String) : Option Obj → List String
  | none => []
  | some o => ["### " ++ title, obj_attributes_to_markdown (some o) [], ""]

/-- `service_level_to_markdown` (source lines 182-242). -/
def service_level_to_markdown : Option ServiceLevel → String
  | none => ""
  | some sl =>
    joinNL ([""] ++
      serviceLevelSub "Availability" sl.availability ++
      serviceLevelSub "Retention" sl.retention ++
      serviceLevelSub "Latency" sl.latency ++
      serviceLevelSub "Freshness" sl.freshness ++
      serviceLevelSub "Frequency" sl.frequency ++
      serviceLevelSub "Support" sl.support ++
      serviceLevelSub "Backup" sl.backup)

/-- `to_markdown` (source lines 31-61). -/
def to_markdown (data_contract : DataContractSpecification) : String :=
  joinNL ["# " ++ data_contract.id,
    "## Info",
    obj_attributes_to_markdown data_contract.info [],
    "",
    "## Servers",
    servers_to_markdown data_contract.servers,
    "",
    "## Terms",
    obj_attributes_to_markdown data_contract.terms [],
    "",
    "## Models",
    models_to_markdown data_contract.models,
    "",
    "## Definitions",
    definitions_to_markdown data_contract.definitions,
    "",
    "## Service levels",
    service_level_to_markdown data_contract.servicelevels]

/-- Number of populated structural children of a field. -/
def structChildCount (f : Field) : Nat :=
  (if f.fields.isEmpty then 0 else 1) + (if f.items.isSome then 1 else 0) +
    (if f.keys.isSome then 1 else 0) + (if f.values.isSome then 1 else 0)

/-- An object with nothing set. -/
def emptyObj : Obj := ⟨none, []⟩

/-- A leaf field of the given type with nothing else set. -/
def leafField (ty : String) : Field := Field.mk ty emptyObj [] none none none

/-- The "Order" model of the end-to-end example: one field `items` of type
`array` whose `items` child has type `string`. -/
def ordersModel : Model :=
  ⟨none, [("items", Field.mk "array" emptyObj [] (some (leafField "string")) none none)]⟩

/-- The end-to-end example document: id `orders`, single model `Order`. -/
def ordersDoc : DataContractSpecification :=
  ⟨"orders", none, [], none, [("Order", ordersModel)], [], none⟩

/-- A document with nothing but an identifier. -/
def dc0 : DataContractSpecification := ⟨"d", none, [], none, [], [], none⟩

/-- The characters of the indentation marker `&numsp;`. -/
def nuC : List Char := ['&', 'n', 'u', 'm', 's', 'p', ';']

/-- The characters of the descent glyph `&#x21b3;`. -/
def arC : List Char := ['&', '#', 'x', '2', '1', 'b', '3', ';']

set_option maxRecDepth 100000

lemma sdata_append (a b : String) : (a ++ b).data = a.data ++ b.data := rfl

lemma sappend_assoc (a b c : String) : a ++ b ++ c = a ++ (b ++ c) := by
  cases a with
  | mk la =>
    cases b with
    | mk lb =>
      cases c with
      | mk lc => exact congrArg String.mk (List.append_assoc la lb lc)

lemma sappend_empty (s : String) : s ++ "" = s := by
  cases s with
  | mk l => exact congrArg String.mk (List.append_nil l)

lemma splitNl_ne_nil (l : List Char) : splitNl l ≠ [] := by
  induction l with
  | nil => simp [splitNl]
  | cons c t ih =>
    by_cases hc : c = '\n'
    · simp [splitNl, hc]
    · simp only [splitNl, if_neg hc]
      cases hsp : splitNl t <;> simp

lemma splitNl_newline (a b : List Char) : splitNl (a ++ '\n' :: b) = splitNl a ++ splitNl b := by
  induction a with
  | nil => simp [splitNl]
  | cons c t ih =>
    by_cases hc : c = '\n'
    · simp [splitNl, hc, ih]
    · simp only [List.cons_append, splitNl, if_neg hc, List.append_eq]
      rw [ih]
      cases hsp : splitNl t with
      | nil => exact absurd hsp (splitNl_ne_nil t)
      | cons h t' => simp

lemma strLines_append_nl (a b : String) : strLines (a ++ "\n" ++ b) = strLines a ++ strLines b := by
  unfold strLines
  have h : (a ++ "\n" ++ b).data = a.data ++ '\n' :: b.data := by
    simp [sdata_append]
  rw [h, splitNl_newline, List.map_append]

lemma strLines_joinNL : ∀ (parts : List String), parts ≠ [] →
    strLines (joinNL parts) = parts.flatMap strLines := by
  intro parts
  induction parts with
  | nil => intro h; exact absurd rfl h
  | cons p rest ih =>
    intro _
    cases rest with
    | nil => simp [joinNL]
    | cons q t =>
      rw [show joinNL (p :: q :: t) = p ++ "\n" ++ joinNL (q :: t) from rfl,
        strLines_append_nl, ih (by simp)]
      simp

lemma joinNL_cons_ex (a : String) (t : List String) : ∃ u, joinNL (a :: t) = a ++ u := by
  cases t with
  | nil => exact ⟨"", by rw [sappend_empty]; rfl⟩
  | cons b bs =>
    exact ⟨"\n" ++ joinNL (b :: bs),
      by rw [show joinNL (a :: b :: bs) = a ++ "\n" ++ joinNL (b :: bs) from rfl, sappend_assoc]⟩

lemma isPrefixOf_head_ne {p c : Char} (ps t : List Char) (h : ¬ p = c) :
    List.isPrefixOf (p :: ps) (c :: t) = false := by
  simp [List.isPrefixOf, h]

lemma isPrefixOf_two_ne {p1 p2 c1 c2 : Char} (ps t : List Char) (h : ¬ p2 = c2) :
    List.isPrefixOf (p1 :: p2 :: ps) (c1 :: c2 :: t) = false := by
  simp [List.isPrefixOf, h]

lemma countSub_cons_true {pat : List Char} {c : Char} {t : List Char}
    (h : pat.isPrefixOf (c :: t) = true) : countSub pat (c :: t) = countSub pat t + 1 := by
  simp [countSub, h, Nat.add_comm]

lemma countSub_cons_false {pat : List Char} {c : Char} {t : List Char}
    (h : pat.isPrefixOf (c :: t) = false) : countSub pat (c :: t) = countSub pat t := by
  simp [countSub, h]

lemma countSub_nu_nu (rest : List Char) :
    countSub nuC ('&' :: 'n' :: 'u' :: 'm' :: 's' :: 'p' :: ';' :: rest) =
      countSub nuC rest + 1 := by
  rw [countSub_cons_true (by simp [nuC, List.isPrefixOf]),
    countSub_cons_false (by simp [nuC, List.isPrefixOf]),
    countSub_cons_false (by simp [nuC, List.isPrefixOf]),
    countSub_cons_false (by simp [nuC, List.isPrefixOf]),
    countSub_cons_false (by simp [nuC, List.isPrefixOf]),
    countSub_cons_false (by simp [nuC, List.isPrefixOf]),
    countSub_cons_false (by simp [nuC, List.isPrefixOf])]

lemma countSub_nu_ar (rest : List Char) :
    countSub nuC ('&' :: '#' :: 'x' :: '2' :: '1' :: 'b' :: '3' :: ';' :: rest) =
      countSub nuC rest := by
  rw [countSub_cons_false (by simp [nuC, List.isPrefixOf]),
    countSub_cons_false (by simp [nuC, List.isPrefixOf]),
    countSub_cons_false (by simp [nuC, List.isPrefixOf]),
    countSub_cons_false (by simp [nuC, List.isPrefixOf]),
    countSub_cons_false (by simp [nuC, List.isPrefixOf]),
    countSub_cons_false (by simp [nuC, List.isPrefixOf]),
    countSub_cons_false (by simp [nuC, List.isPrefixOf]),
    countSub_cons_false (by simp [nuC, List.isPrefixOf])]

lemma countSub_ar_nu (rest : List Char) :
    countSub arC ('&' :: 'n' :: 'u' :: 'm' :: 's' :: 'p' :: ';' :: rest) =
      countSub arC rest := by
  rw [countSub_cons_false (by simp [arC, List.isPrefixOf]),
    countSub_cons_false (by simp [arC, List.isPrefixOf]),
    countSub_cons_false (by simp [arC, List.isPrefixOf]),
    countSub_cons_false (by simp [arC, List.isPrefixOf]),
    countSub_cons_false (by simp [arC, List.isPrefixOf]),
    countSub_cons_false (by simp [arC, List.isPrefixOf]),
    countSub_cons_false (by simp [arC, List.isPrefixOf])]

lemma countSub_ar_ar (rest : List Char) :
    countSub arC ('&' :: '#' :: 'x' :: '2' :: '1' :: 'b' :: '3' :: ';' :: rest) =
      countSub arC rest + 1 := by
  rw [countSub_cons_true (by simp [arC, List.isPrefixOf]),
    countSub_cons_false (by simp [arC, List.isPrefixOf]),
    countSub_cons_false (by simp [arC, List.isPrefixOf]),
    countSub_cons_false (by simp [arC, List.isPrefixOf]),
    countSub_cons_false (by simp [arC, List.isPrefixOf]),
    countSub_cons_false (by simp [arC, List.isPrefixOf]),
    countSub_cons_false (by simp [arC, List.isPrefixOf]),
    countSub_cons_false (by simp [arC, List.isPrefixOf])]

lemma countSub_nu_tabs (level : Nat) (rest : List Char) :
    countSub nuC ((strRepeat "&numsp;" level).data ++ rest) = level + countSub nuC rest := by
  induction level with
  | zero => simp [strRepeat]
  | succ n ih =>
    have h : (strRepeat "&numsp;" (n + 1)).data =
        '&' :: 'n' :: 'u' :: 'm' :: 's' :: 'p' :: ';' :: (strRepeat "&numsp;" n).data := rfl
    rw [h]
    simp only [List.cons_append]
    rw [countSub_nu_nu, ih]
    omega

lemma countSub_ar_tabs (level : Nat) (rest : List Char) :
    countSub arC ((strRepeat "&numsp;" level).data ++ rest) = countSub arC rest := by
  induction level with
  | zero => simp [strRepeat]
  | succ n ih =>
    have h : (strRepeat "&numsp;" (n + 1)).data =
        '&' :: 'n' :: 'u' :: 'm' :: 's' :: 'p' :: ';' :: (strRepeat "&numsp;" n).data := rfl
    rw [h]
    simp only [List.cons_append]
    rw [countSub_ar_nu, ih]

lemma nuC_eq : "&numsp;".data = nuC := rfl

lemma arC_eq : "&#x21b3;".data = arC := rfl

lemma sext {x y : String} (h : x.data = y.data) : x = y := by
  cases x
  cases y
  cases h
  rfl

lemma strMk_ne_empty {l : List Char} (h : l ≠ []) : String.mk l ≠ "" := by
  intro he
  exact h (by simpa using congrArg String.data he)

lemma sdata_ne_nil {s : String} (h : s ≠ "") : s.data ≠ [] := by
  intro hd
  apply h
  cases s with
  | mk l => cases hd; rfl

lemma replaceNl_no_newline (s : List Char) : '\n' ∉ replaceNl s := by
  induction s with
  | nil => simp [replaceNl]
  | cons c t ih =>
    by_cases hc : c = '\n'
    · simp [replaceNl, hc, ih]
    · have hc' : ¬ ('\n' : Char) = c := fun hh => hc hh.symm
      simp [replaceNl, hc, hc', ih]

lemma replaceNl_ne_nil {l : List Char} (h : l ≠ []) : replaceNl l ≠ [] := by
  cases l with
  | nil => exact absurd rfl h
  | cons c t => by_cases hc : c = '\n' <;> simp [replaceNl, hc]

lemma description_to_markdown_ne_empty (d : Option String) : description_to_markdown d ≠ "" := by
  cases d with
  | none => decide
  | some s =>
    cases hsb : (s == "") with
    | true => simp [description_to_markdown, hsb]; decide
    | false =>
      have hs : s ≠ "" := by simpa using hsb
      simp only [description_to_markdown, hsb, Bool.false_eq_true, if_false]
      exact strMk_ne_empty (replaceNl_ne_nil (sdata_ne_nil hs))

lemma obj_attributes_decomp (o : Obj) (excluded : List String) :
    obj_attributes_to_markdown (some o) excluded =
      "*" ++ description_to_markdown o.description ++ "*<br>" ++
        joinBr (attributesList o excluded) := rfl

lemma mem_attributesList (o : Obj) (excluded : List String) (b : String) :
    b ∈ attributesList o excluded ↔
      ∃ p, p ∈ o.attrs ∧ excluded.contains p.1 = false ∧ truthy p.2 = true ∧
        b = bulletOf p.1 p.2 := by
  simp only [attributesList, List.mem_map, List.mem_filter]
  constructor
  · rintro ⟨p, ⟨⟨hp, he⟩, ht⟩, hb⟩
    exact ⟨p, hp, by simpa using he, ht, hb.symm⟩
  · rintro ⟨p, hp, he, ht, hb⟩
    exact ⟨p, ⟨⟨hp, by simpa using he⟩, ht⟩, hb.symm⟩

lemma flatMap_comp_map {α β γ : Type} (f : α → β) (g : β → List γ) (l : List α) :
    (l.map f).flatMap g = l.flatMap (fun x => g (f x)) := by
  induction l with
  | nil => rfl
  | cons a t ih => simp [ih]

lemma strLines_fields (level : Nat) : ∀ (fields : List (String × Field)), fields ≠ [] →
    strLines (fields_to_markdown fields level) =
      fields.flatMap (fun p => strLines (field_to_markdown p.1 p.2 level)) := by
  intro fields
  induction fields with
  | nil => intro h; exact absurd rfl h
  | cons a t ih =>
    intro _
    obtain ⟨n, f⟩ := a
    cases t with
    | nil => simp [fields_to_markdown]
    | cons b t' =>
      rw [show fields_to_markdown ((n, f) :: b :: t') level =
          field_to_markdown n f level ++ "\n" ++ fields_to_markdown (b :: t') level from rfl,
        strLines_append_nl, ih (by simp)]
      simp

/-- C5: for an empty server mapping `servers_to_markdown` returns the empty
string, and for an empty definition mapping `definitions_to_markdown` returns
the empty string; in both cases no header row at all is emitted. -/
theorem C5_empty_mappings : servers_to_markdown [] = "" ∧ definitions_to_markdown [] = "" :=
  ⟨rfl, rfl⟩

/-- C1 counterexample: in the rendered document for the `orders`/`Order`
example, neither the claimed parent row `| items | array |  |` nor the claimed
child row `|&numsp;&#x21b3; items | string |  |` occurs as a substring: the
third column is not empty (it carries the description fallback) and the label
cell always starts with a space. -/
theorem C1_counterexample :
    countSub ("| items | array |  |".data) ((to_markdown ordersDoc).data) = 0 ∧
    countSub ("|&numsp;&#x21b3; items | string |  |".data) ((to_markdown ordersDoc).data) = 0 :=
  ⟨by decide, by decide⟩

/-- C1 amended: the rendered document for the `orders`/`Order` example
contains the heading `## Models`, the model heading `### Order`, the table
header row, the parent row `|  items | array | *No description.*<br> |` and
the child row `| &numsp;&#x21b3; items | string | *No description.*<br> |`,
each exactly once. -/
theorem C1_amended_rows :
    countSub ("## Models".data) ((to_markdown ordersDoc).data) = 1 ∧
    countSub ("### Order".data) ((to_markdown ordersDoc).data) = 1 ∧
    countSub ("| Field | Type | Attributes |".data) ((to_markdown ordersDoc).data) = 1 ∧
    countSub ("|  items | array | *No description.*<br> |".data) ((to_markdown ordersDoc).data) = 1 ∧
    countSub ("| &numsp;&#x21b3; items | string | *No description.*<br> |".data)
      ((to_markdown ordersDoc).data) = 1 :=
  ⟨by decide, by decide, by decide, by decide, by decide⟩

/-- C3 counterexample: an attribute explicitly set to the falsy value `false`
is not rendered at all — the output for an object whose only set attribute is
`("x", false)` is just the description fallback, and the attribute name `x`
does not occur in it. -/
theorem C3_counterexample :
    obj_attributes_to_markdown (some ⟨none, [("x", AttrValue.b false)]⟩) [] =
      "*No description.*<br>" ∧
    countSub ("x".data)
      ((obj_attributes_to_markdown (some ⟨none, [("x", AttrValue.b false)]⟩) []).data) = 0 :=
  ⟨rfl, by decide⟩

/-- C3 amended: a bullet is emitted exactly for the attributes that are set,
not excluded, and truthy (so attributes set to `false`, `0` or `""` are
dropped just like unset ones); a `true` value gives the name-only flag bullet
and any other (truthy) value gives the bold name followed by the value's
string form. -/
theorem C3_amended_bullets :
    (∀ (o : Obj) (excluded : List String),
      obj_attributes_to_markdown (some o) excluded =
        "*" ++ description_to_markdown o.description ++ "*<br>" ++
          joinBr (attributesList o excluded)) ∧
    (∀ (o : Obj) (excluded : List String) (b : String),
      b ∈ attributesList o excluded ↔
        ∃ p, p ∈ o.attrs ∧ excluded.contains p.1 = false ∧ truthy p.2 = true ∧
          b = bulletOf p.1 p.2) ∧
    (∀ (n : String), bulletOf n (AttrValue.b true) = "• `" ++ n ++ "`") ∧
    (∀ (n : String) (v : AttrValue), v ≠ AttrValue.b true →
      bulletOf n v = "• **" ++ n ++ ":** " ++ valueStr v) := by
  refine ⟨fun o e => rfl, mem_attributesList, fun n => rfl, fun n v hv => ?_⟩
  cases v with
  | s w => rfl
  | i w => rfl
  | b bv =>
    cases bv with
    | true => exact absurd rfl hv
    | false => rfl

/-- Witness for C3 amended at concrete inputs. -/
theorem C3_witness :
    bulletOf "x" (AttrValue.i 5) = "• **" ++ "x" ++ ":** " ++ valueStr (AttrValue.i 5) ∧
    ("• **" ++ "y" ++ ":** " ++ valueStr (AttrValue.s "v")) ∈
      attributesList ⟨none, [("y", AttrValue.s "v")]⟩ [] :=
  ⟨C3_amended_bullets.2.2.2 "x" (AttrValue.i 5) (by decide),
    (C3_amended_bullets.2.1 ⟨none, [("y", AttrValue.s "v")]⟩ [] _).mpr
      ⟨("y", AttrValue.s "v"), by simp, rfl, rfl, rfl⟩⟩

/-- C7: an object with no description set renders the emphasized fallback
`*No description.*`; a description `"a\nb"` renders `*a<br>b*`; and the
newline replacement leaves no newline behind. -/
theorem C7_description :
    (∀ (o : Obj) (excluded : List String), o.description = none →
      ∃ t, obj_attributes_to_markdown (some o) excluded = "*No description.*<br>" ++ t) ∧
    (∀ (o : Obj) (excluded : List String), o.description = some "a\nb" →
      ∃ t, obj_attributes_to_markdown (some o) excluded = "*a<br>b*<br>" ++ t) ∧
    (∀ (s : List Char), '\n' ∉ replaceNl s) := by
  refine ⟨fun o e h => ⟨joinBr (attributesList o e), ?_⟩,
    fun o e h => ⟨joinBr (attributesList o e), ?_⟩, replaceNl_no_newline⟩
  · rw [obj_attributes_decomp, h,
      show "*" ++ description_to_markdown none ++ "*<br>" = "*No description.*<br>" from by decide]
  · rw [obj_attributes_decomp, h,
      show "*" ++ description_to_markdown (some "a\nb") ++ "*<br>" = "*a<br>b*<br>" from by decide]

/-- Witness for C7 at concrete objects. -/
theorem C7_witness :
    (∃ t, obj_attributes_to_markdown (some ⟨none, []⟩) [] = "*No description.*<br>" ++ t) ∧
    (∃ t, obj_attributes_to_markdown (some ⟨some "a\nb", []⟩) [] = "*a<br>b*<br>" ++ t) :=
  ⟨C7_description.1 ⟨none, []⟩ [] rfl, C7_description.2.1 ⟨some "a\nb", []⟩ [] rfl⟩

/-- C8: a `true`-valued set attribute yields the name-only flag bullet, while
removing all non-truthy attributes (in particular those set to `false`) does
not change the output at all — they contribute no bullet, exactly like unset
attributes. -/
theorem C8_flag_bullets :
    (∀ (o : Obj) (excluded : List String),
      obj_attributes_to_markdown (some o) excluded =
        obj_attributes_to_markdown
          (some ⟨o.description, o.attrs.filter (fun p => truthy p.2)⟩) excluded) ∧
    (∀ (o : Obj) (excluded : List String) (n : String),
      (n, AttrValue.b true) ∈ o.attrs → excluded.contains n = false →
      ("• `" ++ n ++ "`") ∈ attributesList o excluded) := by
  constructor
  · intro o excluded
    rw [obj_attributes_decomp, obj_attributes_decomp]
    have ha : attributesList o excluded =
        attributesList ⟨o.description, o.attrs.filter (fun p => truthy p.2)⟩ excluded := by
      simp only [attributesList, List.filter_filter]
      rw [List.filter_congr]
      intro p _
      cases h1 : truthy p.2 <;> cases h2 : excluded.contains p.1 <;> simp [h1, h2]
    rw [ha]
  · intro o excluded n hmem hexcl
    exact (mem_attributesList o excluded _).mpr ⟨(n, AttrValue.b true), hmem, hexcl, rfl, rfl⟩

/-- Witness for C8 at a concrete object. -/
theorem C8_witness :
    obj_attributes_to_markdown
        (some ⟨none, [("f", AttrValue.b true), ("z", AttrValue.b false)]⟩) [] =
      obj_attributes_to_markdown
        (some ⟨(Obj.mk none [("f", AttrValue.b true), ("z", AttrValue.b false)]).description,
          (Obj.mk none [("f", AttrValue.b true), ("z", AttrValue.b false)]).attrs.filter
            (fun p => truthy p.2)⟩) [] ∧
    ("• `" ++ "f" ++ "`") ∈
      attributesList ⟨none, [("f", AttrValue.b true), ("z", AttrValue.b false)]⟩ [] :=
  ⟨C8_flag_bullets.1 ⟨none, [("f", AttrValue.b true), ("z", AttrValue.b false)]⟩ [],
    C8_flag_bullets.2 ⟨none, [("f", AttrValue.b true), ("z", AttrValue.b false)]⟩ [] "f"
      (by simp) rfl⟩

/-- C10: for every present object the formatter output is the emphasized
(non-empty) description followed by `<br>`, so it is never the empty string;
hence the Attributes cell of server, definition and field rows is never
empty. -/
theorem C10_attributes_cell_nonempty (o : Obj) (excluded : List String) :
    (∃ d t, obj_attributes_to_markdown (some o) excluded = "*" ++ d ++ "*<br>" ++ t ∧ d ≠ "") ∧
    obj_attributes_to_markdown (some o) excluded ≠ "" := by
  constructor
  · exact ⟨description_to_markdown o.description, joinBr (attributesList o excluded),
      obj_attributes_decomp o excluded, description_to_markdown_ne_empty o.description⟩
  · rw [obj_attributes_decomp]
    intro h
    have hd := congrArg String.data h
    simp [sdata_append] at hd

/-- C2: the row label produced for a field rendered at nesting depth `level`
consists of a prefix (before the field name) holding exactly `level`
occurrences of the indentation marker `&numsp;` and exactly one occurrence of
the descent glyph `&#x21b3;` when `level > 0`; at depth 0 the prefix holds
neither. -/
lemma field_head (field_name ty : String) (o : Obj) (fs : List (String × Field))
    (it ks vs : Option Field) (level : Nat) :
    ∃ u, field_to_markdown field_name (Field.mk ty o fs it ks vs) level =
      "| " ++ (strRepeat "&numsp;" level ++ (if level > 0 then "&#x21b3;" else "") ++ " " ++
        field_name) ++ " | " ++ ty ++ " | " ++
      obj_attributes_to_markdown (some o) ["type", "fields", "items", "keys", "values"] ++
      " |" ++ u := by
  cases it <;> cases ks <;> cases vs <;>
    (simp only [field_to_markdown, List.singleton_append, List.cons_append,
      List.nil_append, List.append_nil]
     exact joinNL_cons_ex _ _)

theorem C2_depth_markers (field_name : String) (f : Field) (level : Nat) :
    ∃ pre rest,
      field_to_markdown field_name f level = "| " ++ pre ++ field_name ++ " | " ++ rest ∧
      countSub ("&numsp;".data) pre.data = level ∧
      countSub ("&#x21b3;".data) pre.data = (if 0 < level then 1 else 0) := by
  cases f with
  | mk ty o fs it ks vs =>
    obtain ⟨u, hu⟩ := field_head field_name ty o fs it ks vs level
    refine ⟨strRepeat "&numsp;" level ++ (if level > 0 then "&#x21b3;" else "") ++ " ",
      ty ++ " | " ++
        obj_attributes_to_markdown (some o) ["type", "fields", "items", "keys", "values"] ++
        " |" ++ u, ?_, ?_, ?_⟩
    · rw [hu]
      apply sext
      simp [sdata_append, List.append_assoc]
    · rw [nuC_eq]
      cases level with
      | zero => decide
      | succ n =>
        rw [if_pos (Nat.succ_pos n), sdata_append, sdata_append, List.append_assoc,
          show ("&#x21b3;".data ++ " ".data) =
            ('&' :: '#' :: 'x' :: '2' :: '1' :: 'b' :: '3' :: ';' :: [' ']) from rfl,
          countSub_nu_tabs, countSub_nu_ar,
          show countSub nuC [' '] = 0 from by decide]
    · rw [arC_eq]
      cases level with
      | zero => decide
      | succ n =>
        rw [if_pos (Nat.succ_pos n), if_pos (Nat.succ_pos n), sdata_append, sdata_append,
          List.append_assoc,
          show ("&#x21b3;".data ++ " ".data) =
            ('&' :: '#' :: 'x' :: '2' :: '1' :: 'b' :: '3' :: ';' :: [' ']) from rfl,
          countSub_ar_tabs, countSub_ar_ar,
          show countSub arC [' '] = 0 from by decide]

/-- C4 counterexample: at a document with id `d` and nothing else, the
claimed layout pattern — every pair of adjacent section headings, starting
with the title, separated by a blank line — is not a subsequence of the
output lines: the `## Info` heading follows the title line immediately, with
no blank line in between. -/
theorem C4_counterexample :
    isSubseq ["# " ++ dc0.id, "", "## Info", "", "## Servers", "", "## Terms", "",
      "## Models", "", "## Definitions", "", "## Service levels"]
      (strLines (to_markdown dc0)) = false := by decide

/-- C4 amended: for every document, the lines of the output are exactly the
title line(s), then `## Info` immediately (no blank line after the title),
then each further section as a blank-line-separated block whose heading is
emitted unconditionally, in the fixed order Info, Servers, Terms, Models,
Definitions, Service levels, even when a section body is empty. -/
theorem C4_amended_layout (dc : DataContractSpecification) :
    strLines (to_markdown dc) =
      strLines ("# " ++ dc.id) ++ ["## Info"] ++
        strLines (obj_attributes_to_markdown dc.info []) ++ [""] ++
      ["## Servers"] ++ strLines (servers_to_markdown dc.servers) ++ [""] ++
      ["## Terms"] ++ strLines (obj_attributes_to_markdown dc.terms []) ++ [""] ++
      ["## Models"] ++ strLines (models_to_markdown dc.models) ++ [""] ++
      ["## Definitions"] ++ strLines (definitions_to_markdown dc.definitions) ++ [""] ++
      ["## Service levels"] ++ strLines (service_level_to_markdown dc.servicelevels) := by
  rw [show to_markdown dc = joinNL ["# " ++ dc.id, "## Info",
      obj_attributes_to_markdown dc.info [], "", "## Servers",
      servers_to_markdown dc.servers, "", "## Terms",
      obj_attributes_to_markdown dc.terms [], "", "## Models",
      models_to_markdown dc.models, "", "## Definitions",
      definitions_to_markdown dc.definitions, "", "## Service levels",
      service_level_to_markdown dc.servicelevels] from rfl,
    strLines_joinNL _ (by simp)]
  simp only [List.flatMap_cons, List.flatMap_nil, List.append_nil,
    show strLines "## Info" = ["## Info"] from rfl,
    show strLines "## Servers" = ["## Servers"] from rfl,
    show strLines "## Terms" = ["## Terms"] from rfl,
    show strLines "## Models" = ["## Models"] from rfl,
    show strLines "## Definitions" = ["## Definitions"] from rfl,
    show strLines "## Service levels" = ["## Service levels"] from rfl,
    show strLines "" = [""] from rfl,
    List.append_assoc, List.singleton_append, List.cons_append]

/-- C6: for a field with at least two populated structural children the
renderer emits the parent row first and then every applicable child subtree,
in the fixed order fields, items, keys, values; being a total function it
never fails on such input. -/
theorem C6_multi_children (field_name ty : String) (o : Obj)
    (fs : List (String × Field)) (it ks vs : Option Field) (level : Nat)
    (h : 2 ≤ structChildCount (Field.mk ty o fs it ks vs)) :
    field_to_markdown field_name (Field.mk ty o fs it ks vs) level =
      joinNL (["| " ++ (strRepeat "&numsp;" level ++ (if level > 0 then "&#x21b3;" else "") ++
          " " ++ field_name) ++ " | " ++ ty ++ " | " ++
          obj_attributes_to_markdown (some o) ["type", "fields", "items", "keys", "values"] ++
          " |"] ++
        (if fs.isEmpty then [] else [fields_to_markdown fs (level + 1)]) ++
        (it.toList.map (fun i => field_to_markdown "items" i (level + 1))) ++
        (ks.toList.map (fun k => field_to_markdown "keys" k (level + 1))) ++
        (vs.toList.map (fun v => field_to_markdown "values" v (level + 1)))) := by
  cases it <;> cases ks <;> cases vs <;>
    simp [field_to_markdown, Option.toList]

/-- Witness for C6 at a field with both `items` and `values` populated. -/
theorem C6_witness :
    2 ≤ structChildCount (Field.mk "array" emptyObj []
        (some (leafField "string")) none (some (leafField "long"))) ∧
    field_to_markdown "x" (Field.mk "array" emptyObj []
        (some (leafField "string")) none (some (leafField "long"))) 0 =
      joinNL (["| " ++ (strRepeat "&numsp;" 0 ++ (if 0 > 0 then "&#x21b3;" else "") ++
          " " ++ "x") ++ " | " ++ "array" ++ " | " ++
          obj_attributes_to_markdown (some emptyObj)
            ["type", "fields", "items", "keys", "values"] ++ " |"] ++
        (if ([] : List (String × Field)).isEmpty then []
          else [fields_to_markdown [] (0 + 1)]) ++
        ((some (leafField "string")).toList.map
          (fun i => field_to_markdown "items" i (0 + 1))) ++
        ((none : Option Field).toList.map
          (fun k => field_to_markdown "keys" k (0 + 1))) ++
        ((some (leafField "long")).toList.map
          (fun v => field_to_markdown "values" v (0 + 1)))) :=
  ⟨by decide, C6_multi_children "x" "array" emptyObj [] (some (leafField "string")) none
    (some (leafField "long")) 0 (by decide)⟩

/-- C9: the output rows appear in input iteration order — the data rows of the server table follow the mapping order, likewise for definitions; the model
sections are concatenated in model-mapping order; and the rows of a field
mapping are concatenated in field-mapping order at every nesting level. -/
theorem C9_row_order :
    (∀ (servers : List (String × Server)), servers ≠ [] →
      strLines (servers_to_markdown servers) =
        "| Name | Type | Attributes |" :: "| ---- | ---- | ---------- |" ::
          servers.flatMap (fun p => strLines (serverRowStr p.1 p.2))) ∧
    (∀ (definitions : List (String × Definition)), definitions ≠ [] →
      strLines (definitions_to_markdown definitions) =
        "| Name | Type | Domain | Attributes |" :: "| ---- | ---- | ------ | ---------- |" ::
          definitions.flatMap (fun p => strLines (definitionRowStr p.1 p.2))) ∧
    (∀ (models : List (String × Model)), models ≠ [] →
      strLines (models_to_markdown models) =
        models.flatMap (fun p => strLines (model_to_markdown p.1 p.2))) ∧
    (∀ (fields : List (String × Field)) (level : Nat), fields ≠ [] →
      strLines (fields_to_markdown fields level) =
        fields.flatMap (fun p => strLines (field_to_markdown p.1 p.2 level))) := by
  refine ⟨?_, ?_, ?_, fun fields level h => strLines_fields level fields h⟩
  · intro servers h
    cases servers with
    | nil => exact absurd rfl h
    | cons a t =>
      rw [show servers_to_markdown (a :: t) =
          joinNL (["| Name | Type | Attributes |", "| ---- | ---- | ---------- |"] ++
            (a :: t).map (fun p => serverRowStr p.1 p.2)) from rfl,
        strLines_joinNL _ (by simp)]
      simp only [List.cons_append, List.nil_append, List.flatMap_cons]
      rw [flatMap_comp_map,
        show strLines "| Name | Type | Attributes |" =
          ["| Name | Type | Attributes |"] from rfl,
        show strLines "| ---- | ---- | ---------- |" =
          ["| ---- | ---- | ---------- |"] from rfl]
      simp
  · intro definitions h
    cases definitions with
    | nil => exact absurd rfl h
    | cons a t =>
      rw [show definitions_to_markdown (a :: t) =
          joinNL (["| Name | Type | Domain | Attributes |",
            "| ---- | ---- | ------ | ---------- |"] ++
            (a :: t).map (fun p => definitionRowStr p.1 p.2)) from rfl,
        strLines_joinNL _ (by simp)]
      simp only [List.cons_append, List.nil_append, List.flatMap_cons]
      rw [flatMap_comp_map,
        show strLines "| Name | Type | Domain | Attributes |" =
          ["| Name | Type | Domain | Attributes |"] from rfl,
        show strLines "| ---- | ---- | ------ | ---------- |" =
          ["| ---- | ---- | ------ | ---------- |"] from rfl]
      simp
  · intro models h
    cases models with
    | nil => exact absurd rfl h
    | cons a t =>
      rw [show models_to_markdown (a :: t) =
          joinNL ((a :: t).map (fun p => model_to_markdown p.1 p.2)) from rfl,
        strLines_joinNL _ (by simp), flatMap_comp_map]

/-- Witness for C9 at concrete one-entry mappings. -/
theorem C9_witness :
    strLines (servers_to_markdown [("prod", Server.mk (some "s3") emptyObj)]) =
      "| Name | Type | Attributes |" :: "| ---- | ---- | ---------- |" ::
        ([("prod", Server.mk (some "s3") emptyObj)].flatMap
          (fun p => strLines (serverRowStr p.1 p.2))) ∧
    strLines (definitions_to_markdown [("oid", Definition.mk (some "text") none emptyObj)]) =
      "| Name | Type | Domain | Attributes |" :: "| ---- | ---- | ------ | ---------- |" ::
        ([("oid", Definition.mk (some "text") none emptyObj)].flatMap
          (fun p => strLines (definitionRowStr p.1 p.2))) ∧
    strLines (models_to_markdown [("M", Model.mk none [])]) =
      [("M", Model.mk none [])].flatMap (fun p => strLines (model_to_markdown p.1 p.2)) ∧
    strLines (fields_to_markdown [("a", leafField "int")] 0) =
      [("a", leafField "int")].flatMap (fun p => strLines (field_to_markdown p.1 p.2 0)) :=
  ⟨C9_row_order.1 _ (List.cons_ne_nil _ _),
    C9_row_order.2.1 _ (List.cons_ne_nil _ _),
    C9_row_order.2.2.1 _ (List.cons_ne_nil _ _),
    C9_row_order.2.2.2 _ 0 (List.cons_ne_nil _ _)⟩

end DC
